import Mathlib

/-!
Verification of the WPPOOL growth-data dashboard (src/app.py).

The program loads a CSV into a pandas dataframe, derives a year-month label
from the install date, precomputes a (month, country) grouped revenue table,
builds four chart figures, and wires two Dash callbacks: one that filters the
grouped revenue table by the selected month and rebuilds the bar chart, and
one that filters the raw records by subscription type, takes value counts of
the country column, and rebuilds the choropleth map.

The embedding below models records as a Lean structure, dataframe columns as
list projections, pandas groupby-sum as "sorted distinct keys, each paired
with the fold of its group" (pandas groupby sorts group keys by default),
value_counts as "distinct values with their occurrence counts, sorted by
count descending", and each chart figure as a value object holding the data
actually bound to the chart axes.  Dates and month strings are compared by
the lexicographic order on their character lists, matching pandas string
ordering for ASCII strings of the fixed YYYY-MM shape.
-/

/-- Calendar date, as produced by the CSV date parser (app.py line 8). -/
structure Date where
  year : Nat
  month : Nat
  day : Nat
deriving DecidableEq

/-- Two-digit zero padding used in the YYYY-MM month label. -/
def pad2 (n : Nat) : String := if n < 10 then "0" ++ toString n else toString n

/-- The year-month label derived by to_period of M cast to str (app.py line 9). -/
def monthKey (d : Date) : String := toString d.year ++ "-" ++ pad2 d.month

/-- One row of the loaded dataframe (app.py line 8): columns user_id, country,
install_date, last_active_date, pro_upgrade_date, monthly_revenue,
days_active, churned, subscription_type. -/
structure Record where
  user_id : Nat
  country : String
  install_date : Date
  last_active_date : Option Date
  pro_upgrade_date : Option Date
  monthly_revenue : Int
  days_active : Nat
  churned : Bool
  subscription_type : String
deriving DecidableEq

/-- The derived month column (app.py line 9). -/
def month (r : Record) : String := monthKey r.install_date

/-- Strict lexicographic order on strings, via their character lists. -/
def strLt (a b : String) : Prop := a.toList < b.toList

/-- Lexicographic order on strings, via their character lists. -/
def strLe (a b : String) : Prop := a.toList ≤ b.toList

instance : DecidableRel strLt := fun a b => inferInstanceAs (Decidable (a.toList < b.toList))

instance : DecidableRel strLe := fun a b => inferInstanceAs (Decidable (a.toList ≤ b.toList))

/-- Order in which pandas groupby sorts the (month, country) key pairs:
lexicographic on the pair, strings compared lexicographically. -/
def keyLe (a b : String × String) : Prop :=
  strLt a.1 b.1 ∨ (a.1 = b.1 ∧ strLe a.2 b.2)

instance : DecidableRel keyLe :=
  fun a b => inferInstanceAs (Decidable (strLt a.1 b.1 ∨ (a.1 = b.1 ∧ strLe a.2 b.2)))

/-- Chronological order on dates, used by groupby over install_date. -/
def dateLe (a b : Date) : Prop :=
  a.year < b.year ∨ (a.year = b.year ∧
    (a.month < b.month ∨ (a.month = b.month ∧ a.day ≤ b.day)))

instance : DecidableRel dateLe :=
  fun a b => inferInstanceAs (Decidable (a.year < b.year ∨ (a.year = b.year ∧
    (a.month < b.month ∨ (a.month = b.month ∧ a.day ≤ b.day)))))

/-- Descending-count order used by pandas value_counts. -/
def cntGe (a b : String × Nat) : Prop := b.2 ≤ a.2

instance : DecidableRel cntGe := fun a b => inferInstanceAs (Decidable (b.2 ≤ a.2))

/-- Distinct elements of a list in order of first appearance, the elements of
seen excluded; models the key-collection step of pandas groupby and unique. -/
def firstDedupAux {α : Type} [DecidableEq α] (seen : List α) : List α → List α
  | [] => []
  | a :: as => if a ∈ seen then firstDedupAux seen as else a :: firstDedupAux (a :: seen) as

/-- Distinct elements of a list in order of first appearance. -/
def firstDedup {α : Type} [DecidableEq α] (l : List α) : List α := firstDedupAux [] l

/-- The (month, country) grouping key of a record (app.py line 13). -/
def keyOf (r : Record) : String × String := (month r, r.country)

/-- Sum of the monthly_revenue column over a list of records. -/
def sumRev (rs : List Record) : Int := (rs.map (fun r => r.monthly_revenue)).sum

/-- The distinct (month, country) keys of the dataset in sorted order,
as produced by pandas groupby with its default key sorting. -/
def monthCountryKeys (rs : List Record) : List (String × String) :=
  List.insertionSort keyLe (firstDedup (rs.map keyOf))

/-- Total monthly_revenue of the group of one (month, country) key. -/
def groupRevenue (rs : List Record) (k : String × String) : Int :=
  sumRev (rs.filter (fun r => decide (keyOf r = k)))

/-- One row of the grouped revenue table: columns month, country,
monthly_revenue after reset_index (app.py line 13). -/
structure RevRow where
  month : String
  country : String
  monthly_revenue : Int
deriving DecidableEq

/-- The precomputed revenue table (app.py line 13): groupby month and country,
sum monthly_revenue, reset_index; groupby sorts the keys. -/
def revenue_by_country_month (rs : List Record) : List RevRow :=
  (monthCountryKeys rs).map (fun k => ⟨k.1, k.2, groupRevenue rs k⟩)

/-- The bar-chart figure: the data bound to the x axis, the y axis, the title
and the fixed height (px.bar, app.py lines 16-22 and 96-102). -/
structure BarChart where
  x : List String
  y : List Int
  title : String
  height : Nat
deriving DecidableEq

/-- The month callback (app.py lines 91-107): filter the precomputed grouped
table to the selected month and rebuild the bar chart from it. -/
def update_revenue_chart (rs : List Record) (selected_month : String) : BarChart :=
  let filtered_data :=
    (revenue_by_country_month rs).filter (fun row => decide (row.month = selected_month))
  ⟨filtered_data.map (fun row => row.country),
   filtered_data.map (fun row => row.monthly_revenue),
   "Revenue from Each Country for " ++ selected_month,
   600⟩

/-- The initial bar chart over the full grouped table (app.py lines 16-25). -/
def fig1 (rs : List Record) : BarChart :=
  ⟨(revenue_by_country_month rs).map (fun row => row.country),
   (revenue_by_country_month rs).map (fun row => row.monthly_revenue),
   "Revenue from Each Country Filtered by Month",
   600⟩

/-- The daily-installs table (app.py line 28): groupby install_date, count
user_id, reset_index; groupby sorts the date keys; every record carries one
install date, so the count of a group is its number of rows. -/
def daily_installs (rs : List Record) : List (Date × Nat) :=
  (List.insertionSort dateLe (firstDedup (rs.map (fun r => r.install_date)))).map
    (fun d => (d, (rs.filter (fun r => decide (r.install_date = d))).length))

/-- The line-chart figure for daily installs (px.line, app.py lines 29-33). -/
structure LineChart where
  x : List Date
  y : List Nat
  title : String
deriving DecidableEq

/-- The daily user acquisition line chart (app.py lines 29-33). -/
def fig2 (rs : List Record) : LineChart :=
  ⟨(daily_installs rs).map (fun p => p.1),
   (daily_installs rs).map (fun p => p.2),
   "Daily User Acquisition"⟩

/-- The box-plot figure built from the raw records (px.box, app.py lines 36-41). -/
structure BoxChart where
  x : List Bool
  y : List Nat
  title : String
deriving DecidableEq

/-- The activity-vs-churn box plot (app.py lines 36-41). -/
def fig4 (rs : List Record) : BoxChart :=
  ⟨rs.map (fun r => r.churned),
   rs.map (fun r => r.days_active),
   "Activity Duration vs Churn Status"⟩

/-- Occurrence counts of the distinct values of a column, sorted by count
descending, as produced by pandas value_counts (app.py line 118). -/
def value_counts (l : List String) : List (String × Nat) :=
  List.insertionSort cntGe
    ((firstDedup l).map (fun c => (c, (l.filter (fun b => decide (b = c))).length)))

/-- The choropleth figure: locations, color values, title, height
(px.choropleth, app.py lines 122-128). -/
structure Choropleth where
  locations : List String
  color : List Nat
  title : String
  height : Nat
deriving DecidableEq

/-- The subscription callback (app.py lines 113-130): filter the raw records
by subscription type, take value counts of the country column, and rebuild
the choropleth from the resulting country and count columns. -/
def update_map (rs : List Record) (subscription_type : String) : Choropleth :=
  let filtered_df := rs.filter (fun r => decide (r.subscription_type = subscription_type))
  let country_dist := value_counts (filtered_df.map (fun r => r.country))
  ⟨country_dist.map (fun p => p.1),
   country_dist.map (fun p => p.2),
   "User Distribution by Country (" ++ subscription_type ++ " users)",
   600⟩

/-- The month dropdown options (app.py line 59): unique months of the grouped
revenue table, in their order of appearance in that table. -/
def month_dropdown_options (rs : List Record) : List String :=
  firstDedup ((revenue_by_country_month rs).map (fun row => row.month))

/-- The month dropdown default (app.py line 60): the first option. -/
def month_dropdown_default (rs : List Record) : Option String :=
  (month_dropdown_options rs).head?

/-- The four chart regions of the page (app.py lines 47-85). -/
structure Page where
  revenue_chart : BarChart
  installs_chart : LineChart
  country_map : Choropleth
  activity_chart : BoxChart
deriving DecidableEq

/-- The month callback wiring (app.py lines 87-90): its single Output is the
figure of the revenue chart; the rest of the page is untouched. -/
def apply_month_callback (rs : List Record) (p : Page) (selected_month : String) : Page :=
  Page.mk (update_revenue_chart rs selected_month) p.installs_chart p.country_map p.activity_chart

/-- The subscription callback wiring (app.py lines 109-112): its single Output
is the figure of the country map; the rest of the page is untouched. -/
def apply_subscription_callback (rs : List Record) (p : Page) (subscription_type : String) : Page :=
  Page.mk p.revenue_chart p.installs_chart (update_map rs subscription_type) p.activity_chart

/-- A user interaction with one of the two dropdowns. -/
inductive Event where
  | monthSelected (m : String)
  | subscriptionSelected (s : String)

/-- One callback invocation triggered by a dropdown event. -/
def step (rs : List Record) (p : Page) : Event → Page
  | Event.monthSelected m => apply_month_callback rs p m
  | Event.subscriptionSelected s => apply_subscription_callback rs p s

/-- A sequence of callback invocations. -/
def applyEvents (rs : List Record) (p : Page) (es : List Event) : Page :=
  es.foldl (step rs) p

/-- Follows the claim text of C3: the distinct month keys in discovery order,
the order in which they first appear in the dataset. -/
def months_in_discovery_order (rs : List Record) : List String :=
  firstDedup (rs.map month)

/-- Follows the claim text of C10: first restrict the raw dataset to the
records of the given derived month, then group by country and sum
monthly_revenue. -/
def revenue_for_month_direct (rs : List Record) (m : String) : List (String × Int) :=
  let sub := rs.filter (fun r => decide (month r = m))
  (List.insertionSort strLe (firstDedup (sub.map (fun r => r.country)))).map
    (fun c => (c, sumRev (sub.filter (fun r => decide (r.country = c)))))

/-- The three-record dataset of the end-to-end example in the spec:
two US installs of 2024-01 with revenue 10 and 5, one DE install of
2024-02 with revenue 7. -/
def ds3 : List Record :=
  [⟨1, "US", ⟨2024, 1, 5⟩, none, none, 10, 3, false, "Free"⟩,
   ⟨2, "US", ⟨2024, 1, 20⟩, none, none, 5, 4, false, "Free"⟩,
   ⟨3, "DE", ⟨2024, 2, 1⟩, none, none, 7, 2, true, "Free"⟩]

/-- A two-record dataset whose months appear in the order 2024-02, 2024-01,
so that discovery order and sorted order differ. -/
def dsSwap : List Record :=
  [⟨1, "US", ⟨2024, 2, 3⟩, none, none, 4, 1, false, "Free"⟩,
   ⟨2, "DE", ⟨2024, 1, 9⟩, none, none, 6, 2, false, "Pro"⟩]

/-- A concrete page used to instantiate the frame theorems. -/
def page0 : Page :=
  Page.mk (fig1 ds3) (fig2 ds3) (update_map ds3 "Free") (fig4 ds3)

/-! Order properties of the string and key orders. -/

instance : IsTrans String strLe := ⟨fun _ _ _ h1 h2 => le_trans h1 h2⟩

instance : IsTotal String strLe := ⟨fun a b => le_total a.toList b.toList⟩

instance : IsAntisymm String strLt := ⟨fun _ _ h1 h2 => absurd h2 (lt_asymm h1)⟩

instance : IsTrans (String × String) keyLe := by
  constructor
  intro a b c hab hbc
  rcases hab with h1 | ⟨e1, l1⟩
  · rcases hbc with h2 | ⟨e2, l2⟩
    · exact Or.inl (lt_trans h1 h2)
    · exact Or.inl (by rw [← e2]; exact h1)
  · rcases hbc with h2 | ⟨e2, l2⟩
    · exact Or.inl (by rw [e1]; exact h2)
    · exact Or.inr ⟨e1.trans e2, le_trans l1 l2⟩

instance : IsTotal (String × String) keyLe := by
  constructor
  intro a b
  rcases lt_trichotomy a.1.toList b.1.toList with h | h | h
  · exact Or.inl (Or.inl h)
  · have e : a.1 = b.1 := String.toList_inj.mp h
    rcases le_total a.2.toList b.2.toList with h2 | h2
    · exact Or.inl (Or.inr ⟨e, h2⟩)
    · exact Or.inr (Or.inr ⟨e.symm, h2⟩)
  · exact Or.inr (Or.inl h)

instance : IsAntisymm (String × String) keyLe := by
  constructor
  intro a b hab hba
  rcases hab with h1 | ⟨e1, l1⟩
  · rcases hba with h2 | ⟨e2, l2⟩
    · exact absurd h2 (lt_asymm h1)
    · rw [e2] at h1
      exact absurd h1 (lt_irrefl _)
  · rcases hba with h2 | ⟨e2, l2⟩
    · rw [e1] at h2
      exact absurd h2 (lt_irrefl _)
    · have e3 : a.2 = b.2 := String.toList_inj.mp (le_antisymm l1 l2)
      exact Prod.ext e1 e3

/-! Properties of firstDedup. -/

theorem mem_firstDedupAux {α : Type} [DecidableEq α] (x : α) :
    ∀ (l : List α) (seen : List α), x ∈ firstDedupAux seen l ↔ (x ∈ l ∧ x ∉ seen) := by
  intro l
  induction l with
  | nil =>
      intro seen
      simp [firstDedupAux]
  | cons a as ih =>
      intro seen
      by_cases h : a ∈ seen
      · rw [show firstDedupAux seen (a :: as) = firstDedupAux seen as by
          simp [firstDedupAux, h]]
        rw [ih seen]
        simp only [List.mem_cons]
        constructor
        · rintro ⟨hx, hns⟩
          exact ⟨Or.inr hx, hns⟩
        · rintro ⟨hx, hns⟩
          rcases hx with rfl | hx2
          · exact absurd h hns
          · exact ⟨hx2, hns⟩
      · rw [show firstDedupAux seen (a :: as) = a :: firstDedupAux (a :: seen) as by
          simp [firstDedupAux, h]]
        simp only [List.mem_cons, ih (a :: seen)]
        constructor
        · rintro (rfl | ⟨hx, hns⟩)
          · exact ⟨Or.inl rfl, h⟩
          · exact ⟨Or.inr hx, fun hc => hns (Or.inr hc)⟩
        · rintro ⟨hx, hns⟩
          by_cases hxa : x = a
          · exact Or.inl hxa
          · have hx2 : x ∈ as := by
              rcases hx with h1 | h1
              · exact absurd h1 hxa
              · exact h1
            refine Or.inr ⟨hx2, fun hc => ?_⟩
            rcases hc with h1 | h1
            · exact hxa h1
            · exact hns h1

theorem nodup_firstDedupAux {α : Type} [DecidableEq α] :
    ∀ (l seen : List α), (firstDedupAux seen l).Nodup := by
  intro l
  induction l with
  | nil =>
      intro seen
      simp [firstDedupAux]
  | cons a as ih =>
      intro seen
      by_cases h : a ∈ seen
      · rw [show firstDedupAux seen (a :: as) = firstDedupAux seen as by
          simp [firstDedupAux, h]]
        exact ih seen
      · rw [show firstDedupAux seen (a :: as) = a :: firstDedupAux (a :: seen) as by
          simp [firstDedupAux, h]]
        refine List.nodup_cons.mpr ⟨?_, ih (a :: seen)⟩
        rw [mem_firstDedupAux]
        rintro ⟨_, hns⟩
        exact hns (List.mem_cons_self a seen)

theorem sublist_firstDedupAux {α : Type} [DecidableEq α] :
    ∀ (l seen : List α), List.Sublist (firstDedupAux seen l) l := by
  intro l
  induction l with
  | nil =>
      intro seen
      simp [firstDedupAux]
  | cons a as ih =>
      intro seen
      by_cases h : a ∈ seen
      · rw [show firstDedupAux seen (a :: as) = firstDedupAux seen as by
          simp [firstDedupAux, h]]
        exact List.Sublist.cons a (ih seen)
      · rw [show firstDedupAux seen (a :: as) = a :: firstDedupAux (a :: seen) as by
          simp [firstDedupAux, h]]
        exact List.Sublist.cons₂ a (ih (a :: seen))

theorem mem_firstDedup {α : Type} [DecidableEq α] {x : α} {l : List α} :
    x ∈ firstDedup l ↔ x ∈ l := by
  unfold firstDedup
  rw [mem_firstDedupAux]
  simp

theorem nodup_firstDedup {α : Type} [DecidableEq α] (l : List α) : (firstDedup l).Nodup :=
  nodup_firstDedupAux l []

theorem sublist_firstDedup {α : Type} [DecidableEq α] (l : List α) :
    List.Sublist (firstDedup l) l :=
  sublist_firstDedupAux l []

/-! Generic list lemmas: filtering a mapped list, and summing a grouped list. -/

theorem filter_map_eq {α β : Type} (f : α → β) (p : β → Bool) :
    ∀ l : List α, (l.map f).filter p = (l.filter (fun a => p (f a))).map f := by
  intro l
  induction l with
  | nil => rfl
  | cons a as ih =>
      by_cases h : p (f a) = true
      · simp [List.filter_cons, h, ih]
      · simp [List.filter_cons, h, ih]

theorem sum_map_ones {α : Type} : ∀ l : List α, (l.map (fun _ => (1 : Nat))).sum = l.length := by
  intro l
  induction l with
  | nil => rfl
  | cons a as ih => simp [ih, Nat.add_comm]

theorem sum_map_filter_split {α M : Type} [AddCommMonoid M] (p : α → Bool) (f : α → M) :
    ∀ l : List α,
      ((l.filter p).map f).sum + ((l.filter (fun a => !(p a))).map f).sum = (l.map f).sum := by
  intro l
  induction l with
  | nil => simp
  | cons a as ih =>
      by_cases h : p a = true
      · have h1 : List.filter p (a :: as) = a :: List.filter p as := by
          simp [List.filter_cons, h]
        have h2 : List.filter (fun a2 => !(p a2)) (a :: as)
            = List.filter (fun a2 => !(p a2)) as := by
          simp [List.filter_cons, h]
        rw [h1, h2]
        simp only [List.map_cons, List.sum_cons]
        rw [add_assoc, ih]
      · have h1 : List.filter p (a :: as) = List.filter p as := by
          simp [List.filter_cons, h]
        have h2 : List.filter (fun a2 => !(p a2)) (a :: as)
            = a :: List.filter (fun a2 => !(p a2)) as := by
          simp [List.filter_cons, h]
        rw [h1, h2]
        simp only [List.map_cons, List.sum_cons]
        rw [add_left_comm, ih]

theorem sum_over_groups {α κ M : Type} [DecidableEq κ] [AddCommMonoid M]
    (key : α → κ) (f : α → M) :
    ∀ ks : List κ, ks.Nodup → ∀ rs : List α, (∀ r ∈ rs, key r ∈ ks) →
      (ks.map (fun k => ((rs.filter (fun r => decide (key r = k))).map f).sum)).sum
        = (rs.map f).sum := by
  intro ks
  induction ks with
  | nil =>
      intro _ rs h
      cases rs with
      | nil => simp
      | cons r rs2 => exact absurd (h r (List.mem_cons_self r rs2)) (List.not_mem_nil _)
  | cons k ks ih =>
      intro hnd rs h
      have hk : k ∉ ks := (List.nodup_cons.mp hnd).1
      have hnd2 : ks.Nodup := (List.nodup_cons.mp hnd).2
      have hmem2 : ∀ r ∈ rs.filter (fun r => !(decide (key r = k))), key r ∈ ks := by
        intro r hr
        have hsp := List.mem_filter.mp hr
        have hne : key r ≠ k := by simpa using hsp.2
        rcases List.mem_cons.mp (h r hsp.1) with h1 | h1
        · exact absurd h1 hne
        · exact h1
      have hgroups : ∀ k2 ∈ ks,
          rs.filter (fun r => decide (key r = k2))
            = (rs.filter (fun r => !(decide (key r = k)))).filter
                (fun r => decide (key r = k2)) := by
        intro k2 hk2
        rw [List.filter_filter]
        apply List.filter_congr
        intro r _
        by_cases hr : key r = k2
        · have hne2 : ¬ k2 = k := fun hc => hk (hc ▸ hk2)
          simp [hr, hne2]
        · simp [hr]
      have hmapped :
          ks.map (fun k2 => ((rs.filter (fun r => decide (key r = k2))).map f).sum)
            = ks.map (fun k2 =>
                (((rs.filter (fun r => !(decide (key r = k)))).filter
                    (fun r => decide (key r = k2))).map f).sum) :=
        List.map_congr_left (fun k2 hk2 => by rw [hgroups k2 hk2])
      rw [List.map_cons, List.sum_cons, hmapped,
        ih hnd2 (rs.filter (fun r => !(decide (key r = k)))) hmem2]
      exact sum_map_filter_split (fun r => decide (key r = k)) f rs

theorem count_over_groups {α κ : Type} [DecidableEq κ] (key : α → κ)
    (ks : List κ) (hnd : ks.Nodup) (rs : List α) (h : ∀ r ∈ rs, key r ∈ ks) :
    (ks.map (fun k => (rs.filter (fun r => decide (key r = k))).length)).sum = rs.length := by
  have h1 := sum_over_groups key (fun _ => (1 : Nat)) ks hnd rs h
  have h2 : (fun k => ((rs.filter (fun r => decide (key r = k))).map (fun _ => (1 : Nat))).sum)
      = fun k => (rs.filter (fun r => decide (key r = k))).length :=
    funext fun k => sum_map_ones _
  rw [h2, sum_map_ones rs] at h1
  exact h1

/-! Properties of the grouped (month, country) key list. -/

theorem nodup_monthCountryKeys (rs : List Record) : (monthCountryKeys rs).Nodup :=
  ((List.perm_insertionSort keyLe _).nodup_iff).mpr (nodup_firstDedup _)

theorem mem_monthCountryKeys {rs : List Record} {k : String × String} :
    k ∈ monthCountryKeys rs ↔ k ∈ rs.map keyOf := by
  unfold monthCountryKeys
  rw [(List.perm_insertionSort keyLe _).mem_iff, mem_firstDedup]

theorem sorted_monthCountryKeys (rs : List Record) :
    List.Sorted keyLe (monthCountryKeys rs) :=
  List.sorted_insertionSort keyLe _

theorem filter_key_of_month (rs : List Record) (k : String × String) (m : String)
    (hk : k.1 = m) :
    rs.filter (fun r => decide (keyOf r = k))
      = (rs.filter (fun r => decide (month r = m))).filter
          (fun r => decide (keyOf r = k)) := by
  rw [List.filter_filter]
  apply List.filter_congr
  intro r _
  by_cases hr : keyOf r = k
  · have h1 : (keyOf r).1 = month r := rfl
    have hm : month r = m := by rw [← h1, hr, hk]
    simp [hr, hm]
  · simp [hr]

theorem month_filter_sum (rs : List Record) (m : String) :
    (((revenue_by_country_month rs).filter
        (fun row => decide (row.month = m))).map (fun row => row.monthly_revenue)).sum
      = ((rs.filter (fun r => decide (month r = m))).map (fun r => r.monthly_revenue)).sum := by
  have h0 : ((revenue_by_country_month rs).filter
        (fun row => decide (row.month = m))).map (fun row => row.monthly_revenue)
      = ((monthCountryKeys rs).filter (fun k => decide (k.1 = m))).map
          (fun k => groupRevenue rs k) := by
    unfold revenue_by_country_month
    rw [filter_map_eq, List.map_map]
    rfl
  rw [h0]
  have hnd : ((monthCountryKeys rs).filter (fun k => decide (k.1 = m))).Nodup :=
    (nodup_monthCountryKeys rs).filter _
  have hmem : ∀ r ∈ rs.filter (fun r => decide (month r = m)),
      keyOf r ∈ (monthCountryKeys rs).filter (fun k => decide (k.1 = m)) := by
    intro r hr
    have hsp := List.mem_filter.mp hr
    refine List.mem_filter.mpr ⟨?_, ?_⟩
    · exact mem_monthCountryKeys.mpr (List.mem_map.mpr ⟨r, hsp.1, rfl⟩)
    · have hm : month r = m := by simpa using hsp.2
      have h1 : (keyOf r).1 = month r := rfl
      simp [h1, hm]
  have hgr : ∀ k ∈ (monthCountryKeys rs).filter (fun k => decide (k.1 = m)),
      groupRevenue rs k
        = (((rs.filter (fun r => decide (month r = m))).filter
            (fun r => decide (keyOf r = k))).map (fun r => r.monthly_revenue)).sum := by
    intro k hk
    have hk1 : k.1 = m := by simpa using (List.mem_filter.mp hk).2
    unfold groupRevenue sumRev
    rw [filter_key_of_month rs k m hk1]
  rw [List.map_congr_left hgr]
  exact sum_over_groups keyOf (fun r => r.monthly_revenue) _ hnd _ hmem

theorem value_counts_sum (l : List String) :
    ((value_counts l).map (fun p => p.2)).sum = l.length := by
  unfold value_counts
  have hperm := (List.perm_insertionSort cntGe
    ((firstDedup l).map (fun c => (c, (l.filter (fun b => decide (b = c))).length)))).map
      (fun p : String × Nat => p.2)
  rw [hperm.sum_eq, List.map_map]
  exact count_over_groups (fun b : String => b) (firstDedup l) (nodup_firstDedup l) l
    (fun r hr => mem_firstDedup.mpr hr)

theorem update_map_color_sum (rs : List Record) (sub : String) :
    ((update_map rs sub).color).sum
      = (rs.filter (fun r => decide (r.subscription_type = sub))).length := by
  simp only [update_map]
  rw [value_counts_sum, List.length_map]

/-- Claim C1: for every month m present in the data, the revenue values of the
month callback's chart (the grouped table filtered to m) sum to the total
monthly_revenue of the records whose derived month is m. -/
theorem C1_month_revenue_sum (rs : List Record) (m : String) (hm : m ∈ rs.map month) :
    ((update_revenue_chart rs m).y).sum
      = ((rs.filter (fun r => decide (month r = m))).map (fun r => r.monthly_revenue)).sum := by
  have h0 : (update_revenue_chart rs m).y
      = ((revenue_by_country_month rs).filter (fun row => decide (row.month = m))).map
          (fun row => row.monthly_revenue) := rfl
  rw [h0, month_filter_sum]

theorem C1_month_revenue_sum_witness :
    ("2024-01" ∈ ds3.map month) ∧
    ((update_revenue_chart ds3 "2024-01").y).sum
      = ((ds3.filter (fun r => decide (month r = "2024-01"))).map
          (fun r => r.monthly_revenue)).sum :=
  ⟨by decide, C1_month_revenue_sum ds3 "2024-01" (by decide)⟩

/-- Claim C2: for every subscription type in the Free and Pro set, the counts
of the subscription callback's country distribution sum to the number of
records of that subscription type. -/
theorem C2_subscription_counts_sum (rs : List Record) (sub : String)
    (hsub : sub = "Free" ∨ sub = "Pro") :
    ((update_map rs sub).color).sum
      = (rs.filter (fun r => decide (r.subscription_type = sub))).length :=
  update_map_color_sum rs sub

theorem C2_subscription_counts_sum_witness :
    (("Free" : String) = "Free" ∨ ("Free" : String) = "Pro") ∧
    ((update_map ds3 "Free").color).sum
      = (ds3.filter (fun r => decide (r.subscription_type = "Free"))).length :=
  ⟨Or.inl rfl, C2_subscription_counts_sum ds3 "Free" (Or.inl rfl)⟩

/-- Claim C5: on the three-record example dataset, filtering the grouped table
as the month callback does yields exactly one row US 15 for 2024-01 and
exactly one row DE 7 for 2024-02. -/
theorem C5_end_to_end :
    ((revenue_by_country_month ds3).filter (fun row => decide (row.month = "2024-01")))
      = [⟨"2024-01", "US", 15⟩] ∧
    ((revenue_by_country_month ds3).filter (fun row => decide (row.month = "2024-02")))
      = [⟨"2024-02", "DE", 7⟩] := by decide

/-- Claim C6: the per-date counts of the daily-installs table sum to the
number of records; in this embedding every record carries exactly one
install date by construction of the Record type. -/
theorem C6_daily_installs_sum (rs : List Record) :
    ((daily_installs rs).map (fun p => p.2)).sum = rs.length := by
  unfold daily_installs
  rw [List.map_map]
  have hperm := List.perm_insertionSort dateLe (firstDedup (rs.map (fun r => r.install_date)))
  have hnd : (List.insertionSort dateLe (firstDedup (rs.map (fun r => r.install_date)))).Nodup :=
    hperm.nodup_iff.mpr (nodup_firstDedup _)
  have hmem : ∀ r ∈ rs, r.install_date
      ∈ List.insertionSort dateLe (firstDedup (rs.map (fun r => r.install_date))) := by
    intro r hr
    rw [hperm.mem_iff, mem_firstDedup]
    exact List.mem_map.mpr ⟨r, hr, rfl⟩
  exact count_over_groups (fun r : Record => r.install_date) _ hnd rs hmem

/-- Claim C7: when every record is Free or Pro, the records counted by the
Free distribution and by the Pro distribution are disjoint, and the two
total counts sum to the dataset size. -/
theorem C7_free_pro_partition (rs : List Record)
    (h : ∀ r ∈ rs, r.subscription_type = "Free" ∨ r.subscription_type = "Pro") :
    (∀ r ∈ rs.filter (fun r => decide (r.subscription_type = "Free")),
        r ∉ rs.filter (fun r => decide (r.subscription_type = "Pro"))) ∧
    ((update_map rs "Free").color).sum + ((update_map rs "Pro").color).sum = rs.length := by
  constructor
  · intro r hrF hrP
    have h1 : r.subscription_type = "Free" := by simpa using (List.mem_filter.mp hrF).2
    have h2 : r.subscription_type = "Pro" := by simpa using (List.mem_filter.mp hrP).2
    rw [h1] at h2
    exact absurd h2 (by decide)
  · rw [update_map_color_sum, update_map_color_sum]
    have hcong : rs.filter (fun r => decide (r.subscription_type = "Pro"))
        = rs.filter (fun r => !(decide (r.subscription_type = "Free"))) := by
      apply List.filter_congr
      intro r hr
      rcases h r hr with h1 | h1
      · simp [h1]
      · simp [h1]
    rw [hcong]
    have hsplit := sum_map_filter_split
      (fun r => decide (r.subscription_type = "Free")) (fun _ => (1 : Nat)) rs
    simp only [sum_map_ones] at hsplit
    exact hsplit

theorem C7_free_pro_partition_witness :
    (∀ r ∈ ds3, r.subscription_type = "Free" ∨ r.subscription_type = "Pro") ∧
    ((∀ r ∈ ds3.filter (fun r => decide (r.subscription_type = "Free")),
        r ∉ ds3.filter (fun r => decide (r.subscription_type = "Pro"))) ∧
    ((update_map ds3 "Free").color).sum + ((update_map ds3 "Pro").color).sum = ds3.length) :=
  ⟨by decide, C7_free_pro_partition ds3 (by decide)⟩

/-- Claim C8: the month callback writes only the revenue chart figure and the
subscription callback writes only the country map figure; every other chart
of the page is unchanged by either handler. -/
theorem C8_callback_frame (rs : List Record) (p : Page) (m s : String) :
    (apply_month_callback rs p m).revenue_chart = update_revenue_chart rs m ∧
    (apply_month_callback rs p m).installs_chart = p.installs_chart ∧
    (apply_month_callback rs p m).country_map = p.country_map ∧
    (apply_month_callback rs p m).activity_chart = p.activity_chart ∧
    (apply_subscription_callback rs p s).country_map = update_map rs s ∧
    (apply_subscription_callback rs p s).revenue_chart = p.revenue_chart ∧
    (apply_subscription_callback rs p s).installs_chart = p.installs_chart ∧
    (apply_subscription_callback rs p s).activity_chart = p.activity_chart :=
  ⟨rfl, rfl, rfl, rfl, rfl, rfl, rfl, rfl⟩

/-- Claim C9: both handlers are deterministic and stateless: after any two
histories of prior invocations over the same dataset, invoking the same
handler with the same filter value produces equal chart figures. -/
theorem C9_handlers_stateless (rs : List Record) (p q : Page)
    (es fs : List Event) (m s : String) :
    (step rs (applyEvents rs p es) (Event.monthSelected m)).revenue_chart
      = (step rs (applyEvents rs q fs) (Event.monthSelected m)).revenue_chart ∧
    (step rs (applyEvents rs p es) (Event.subscriptionSelected s)).country_map
      = (step rs (applyEvents rs q fs) (Event.subscriptionSelected s)).country_map :=
  ⟨rfl, rfl⟩

/-- Claim C4: a month matching no rows yields an empty bar chart and a
subscription value matching no rows yields an empty choropleth, in both
cases without touching any other chart of the page. -/
theorem C4_empty_filter_non_error (rs : List Record) (p : Page) (m s : String)
    (hm : ∀ r ∈ rs, month r ≠ m) (hs : ∀ r ∈ rs, r.subscription_type ≠ s) :
    (update_revenue_chart rs m).x = [] ∧ (update_revenue_chart rs m).y = [] ∧
    (update_map rs s).locations = [] ∧ (update_map rs s).color = [] ∧
    (apply_month_callback rs p m).installs_chart = p.installs_chart ∧
    (apply_month_callback rs p m).country_map = p.country_map ∧
    (apply_month_callback rs p m).activity_chart = p.activity_chart ∧
    (apply_subscription_callback rs p s).revenue_chart = p.revenue_chart ∧
    (apply_subscription_callback rs p s).installs_chart = p.installs_chart ∧
    (apply_subscription_callback rs p s).activity_chart = p.activity_chart := by
  have hT : (revenue_by_country_month rs).filter (fun row => decide (row.month = m)) = [] := by
    rw [List.filter_eq_nil_iff]
    intro row hrow
    unfold revenue_by_country_month at hrow
    rcases List.mem_map.mp hrow with ⟨k, hk, hkeq⟩
    rcases List.mem_map.mp (mem_monthCountryKeys.mp hk) with ⟨r, hr, hre⟩
    have hrm : row.month = month r := by
      rw [← hkeq, ← hre]
      rfl
    simp [hrm, hm r hr]
  have hF : rs.filter (fun r => decide (r.subscription_type = s)) = [] := by
    rw [List.filter_eq_nil_iff]
    intro r hr
    simp [hs r hr]
  refine ⟨?_, ?_, ?_, ?_, rfl, rfl, rfl, rfl, rfl, rfl⟩
  · have h1 : (update_revenue_chart rs m).x
        = ((revenue_by_country_month rs).filter (fun row => decide (row.month = m))).map
            (fun row => row.country) := rfl
    rw [h1, hT]
    rfl
  · have h1 : (update_revenue_chart rs m).y
        = ((revenue_by_country_month rs).filter (fun row => decide (row.month = m))).map
            (fun row => row.monthly_revenue) := rfl
    rw [h1, hT]
    rfl
  · have h1 : (update_map rs s).locations
        = (value_counts ((rs.filter (fun r => decide (r.subscription_type = s))).map
            (fun r => r.country))).map (fun p2 => p2.1) := rfl
    rw [h1, hF]
    rfl
  · have h1 : (update_map rs s).color
        = (value_counts ((rs.filter (fun r => decide (r.subscription_type = s))).map
            (fun r => r.country))).map (fun p2 => p2.2) := rfl
    rw [h1, hF]
    rfl

theorem C4_empty_filter_non_error_witness :
    (∀ r ∈ ds3, month r ≠ "2023-01") ∧ (∀ r ∈ ds3, r.subscription_type ≠ "Pro") ∧
    ((update_revenue_chart ds3 "2023-01").x = [] ∧
     (update_revenue_chart ds3 "2023-01").y = [] ∧
     (update_map ds3 "Pro").locations = [] ∧ (update_map ds3 "Pro").color = [] ∧
     (apply_month_callback ds3 page0 "2023-01").installs_chart = page0.installs_chart ∧
     (apply_month_callback ds3 page0 "2023-01").country_map = page0.country_map ∧
     (apply_month_callback ds3 page0 "2023-01").activity_chart = page0.activity_chart ∧
     (apply_subscription_callback ds3 page0 "Pro").revenue_chart = page0.revenue_chart ∧
     (apply_subscription_callback ds3 page0 "Pro").installs_chart = page0.installs_chart ∧
     (apply_subscription_callback ds3 page0 "Pro").activity_chart = page0.activity_chart) :=
  ⟨by decide, by decide,
    C4_empty_filter_non_error ds3 page0 "2023-01" "Pro" (by decide) (by decide)⟩

theorem strLe_and_ne_lt {a b : String} (h1 : strLe a b) (h2 : a ≠ b) : strLt a b := by
  have h3 : a.toList ≠ b.toList := fun hc => h2 (String.toList_inj.mp hc)
  exact lt_of_le_of_ne h1 h3

/-- Claim C3 counterexample: on a dataset whose months first appear in the
order 2024-02, 2024-01, the dropdown options are not in discovery order and
the default is not the first discovered month, because pandas groupby sorts
the group keys. -/
theorem C3_discovery_order_counterexample :
    month_dropdown_options dsSwap ≠ months_in_discovery_order dsSwap ∧
    month_dropdown_default dsSwap ≠ (months_in_discovery_order dsSwap).head? := by
  decide

/-- Claim C3 (amended): the month dropdown options are exactly the distinct
MonthKeys present in the dataset, listed in ascending lexicographic order
(the key order of the grouped table, since pandas groupby sorts its keys),
and the default selected value is the first option, the smallest month. -/
theorem C3_month_options_sorted (rs : List Record) :
    (month_dropdown_options rs).Nodup ∧
    List.Sorted strLe (month_dropdown_options rs) ∧
    (∀ x, x ∈ month_dropdown_options rs ↔ x ∈ rs.map month) ∧
    month_dropdown_default rs = (month_dropdown_options rs).head? := by
  have hmap : (revenue_by_country_month rs).map (fun row => row.month)
      = (monthCountryKeys rs).map (fun k => k.1) := by
    unfold revenue_by_country_month
    rw [List.map_map]
    exact rfl
  refine ⟨?_, ?_, ?_, rfl⟩
  · exact nodup_firstDedup _
  · unfold month_dropdown_options
    rw [hmap]
    have hK : List.Pairwise (fun a b : String × String => strLe a.1 b.1)
        (monthCountryKeys rs) := by
      refine List.Pairwise.imp ?_ (sorted_monthCountryKeys rs)
      intro a b hab
      rcases hab with h1 | ⟨e1, _⟩
      · exact le_of_lt h1
      · rw [e1]
        exact le_refl _
    have hmapped : List.Pairwise strLe ((monthCountryKeys rs).map (fun k => k.1)) :=
      List.pairwise_map.mpr hK
    exact hmapped.sublist (sublist_firstDedup _)
  · intro x
    unfold month_dropdown_options
    rw [mem_firstDedup, hmap]
    constructor
    · intro hx
      rcases List.mem_map.mp hx with ⟨k, hk, hkeq⟩
      rcases List.mem_map.mp (mem_monthCountryKeys.mp hk) with ⟨r, hr, hre⟩
      refine List.mem_map.mpr ⟨r, hr, ?_⟩
      rw [← hkeq, ← hre]
      rfl
    · intro hx
      rcases List.mem_map.mp hx with ⟨r, hr, hre⟩
      refine List.mem_map.mpr
        ⟨keyOf r, mem_monthCountryKeys.mpr (List.mem_map.mpr ⟨r, hr, rfl⟩), ?_⟩
      rw [← hre]
      rfl

/-- Claim C10: filtering the precomputed full (month, country) grouped
revenue table down to rows of month m, as the month callback does, yields
exactly the (country, revenue) pairs obtained by first restricting the raw
dataset to records of derived month m and then grouping by country and
summing monthly_revenue. -/
theorem C10_filter_grouped_eq_group_filtered (rs : List Record) (m : String) :
    ((revenue_by_country_month rs).filter (fun row => decide (row.month = m))).map
        (fun row => (row.country, row.monthly_revenue))
      = revenue_for_month_direct rs m := by
  have hA : ((revenue_by_country_month rs).filter (fun row => decide (row.month = m))).map
        (fun row => (row.country, row.monthly_revenue))
      = ((monthCountryKeys rs).filter (fun k => decide (k.1 = m))).map
          (fun k => (k.2, groupRevenue rs k)) := by
    unfold revenue_by_country_month
    rw [filter_map_eq, List.map_map]
    exact rfl
  have hndK : ((monthCountryKeys rs).filter (fun k => decide (k.1 = m))).Nodup :=
    (nodup_monthCountryKeys rs).filter _
  have hK1 : ∀ k ∈ (monthCountryKeys rs).filter (fun k => decide (k.1 = m)), k.1 = m :=
    fun k hk => by simpa using (List.mem_filter.mp hk).2
  have hndS : (((monthCountryKeys rs).filter (fun k => decide (k.1 = m))).map
      (fun k => k.2)).Nodup := by
    refine List.Nodup.map_on ?_ hndK
    intro a ha b hb hab
    have he : a.1 = b.1 := by rw [hK1 a ha, hK1 b hb]
    exact Prod.ext he hab
  have hndC : (List.insertionSort strLe (firstDedup
      ((rs.filter (fun r => decide (month r = m))).map (fun r => r.country)))).Nodup :=
    (List.perm_insertionSort strLe _).nodup_iff.mpr (nodup_firstDedup _)
  have hpairK : List.Pairwise (fun a b : String × String => keyLe a b ∧ a ≠ b)
      (monthCountryKeys rs) :=
    List.Pairwise.and (sorted_monthCountryKeys rs) (nodup_monthCountryKeys rs)
  have hpairK2 : List.Pairwise (fun a b : String × String => keyLe a b ∧ a ≠ b)
      ((monthCountryKeys rs).filter (fun k => decide (k.1 = m))) :=
    hpairK.sublist (List.filter_sublist _)
  have hpairS : List.Pairwise strLt
      (((monthCountryKeys rs).filter (fun k => decide (k.1 = m))).map (fun k => k.2)) := by
    rw [List.pairwise_map]
    refine List.Pairwise.imp_of_mem ?_ hpairK2
    intro a b ha hb hab
    rcases hab with ⟨hle, hne⟩
    rcases hle with h1 | ⟨e1, l1⟩
    · rw [hK1 a ha, hK1 b hb] at h1
      exact absurd h1 (lt_irrefl _)
    · have hne2 : a.2 ≠ b.2 := fun hc => hne (Prod.ext e1 hc)
      exact strLe_and_ne_lt l1 hne2
  have hpairC : List.Pairwise strLt (List.insertionSort strLe (firstDedup
      ((rs.filter (fun r => decide (month r = m))).map (fun r => r.country)))) := by
    refine List.Pairwise.imp_of_mem ?_
      (List.Pairwise.and (List.sorted_insertionSort strLe _) hndC)
    intro a b _ _ hab
    exact strLe_and_ne_lt hab.1 hab.2
  have hmemSC : ∀ c, c ∈ ((monthCountryKeys rs).filter (fun k => decide (k.1 = m))).map
        (fun k => k.2)
      ↔ c ∈ List.insertionSort strLe (firstDedup
          ((rs.filter (fun r => decide (month r = m))).map (fun r => r.country))) := by
    intro c
    rw [(List.perm_insertionSort strLe _).mem_iff, mem_firstDedup]
    constructor
    · intro hc
      rcases List.mem_map.mp hc with ⟨k, hk, hkeq⟩
      have hk1 : k.1 = m := hK1 k hk
      have hkK : k ∈ monthCountryKeys rs := (List.mem_filter.mp hk).1
      rcases List.mem_map.mp (mem_monthCountryKeys.mp hkK) with ⟨r, hr, hre⟩
      refine List.mem_map.mpr ⟨r, ?_, ?_⟩
      · refine List.mem_filter.mpr ⟨hr, ?_⟩
        have hmr : month r = m := by
          have hf : (keyOf r).1 = month r := rfl
          rw [← hf, hre, hk1]
        simp [hmr]
      · have hsnd : (keyOf r).2 = r.country := rfl
        rw [← hkeq, ← hre, hsnd]
    · intro hc
      rcases List.mem_map.mp hc with ⟨r, hr, hre⟩
      have hsp := List.mem_filter.mp hr
      have hmr : month r = m := by simpa using hsp.2
      refine List.mem_map.mpr ⟨keyOf r, ?_, ?_⟩
      · refine List.mem_filter.mpr
          ⟨mem_monthCountryKeys.mpr (List.mem_map.mpr ⟨r, hsp.1, rfl⟩), ?_⟩
        have hf : (keyOf r).1 = month r := rfl
        simp [hf, hmr]
      · rw [← hre]
        rfl
  have hSC : ((monthCountryKeys rs).filter (fun k => decide (k.1 = m))).map (fun k => k.2)
      = List.insertionSort strLe (firstDedup
          ((rs.filter (fun r => decide (month r = m))).map (fun r => r.country))) :=
    List.eq_of_perm_of_sorted ((List.perm_ext_iff_of_nodup hndS hndC).mpr hmemSC)
      hpairS hpairC
  have hid : ((monthCountryKeys rs).filter (fun k => decide (k.1 = m))).map
        (fun k => ((m : String), k.2))
      = (monthCountryKeys rs).filter (fun k => decide (k.1 = m)) := by
    have h1 : ∀ k ∈ (monthCountryKeys rs).filter (fun k => decide (k.1 = m)),
        (((m : String), k.2) : String × String) = k := by
      intro k hk
      exact Prod.ext (hK1 k hk).symm rfl
    calc ((monthCountryKeys rs).filter (fun k => decide (k.1 = m))).map
          (fun k => ((m : String), k.2))
        = ((monthCountryKeys rs).filter (fun k => decide (k.1 = m))).map id :=
          List.map_congr_left h1
      _ = (monthCountryKeys rs).filter (fun k => decide (k.1 = m)) := List.map_id _
  have hK'row : (monthCountryKeys rs).filter (fun k => decide (k.1 = m))
      = (List.insertionSort strLe (firstDedup
          ((rs.filter (fun r => decide (month r = m))).map (fun r => r.country)))).map
            (fun c => ((m : String), c)) := by
    rw [← hSC, List.map_map]
    exact hid.symm
  rw [hA, hK'row, List.map_map]
  have hB : revenue_for_month_direct rs m
      = (List.insertionSort strLe (firstDedup
          ((rs.filter (fun r => decide (month r = m))).map (fun r => r.country)))).map
            (fun c => (c, sumRev ((rs.filter (fun r => decide (month r = m))).filter
              (fun r => decide (r.country = c))))) := rfl
  rw [hB]
  apply List.map_congr_left
  intro c hc
  have hgrp : groupRevenue rs ((m : String), c)
      = sumRev ((rs.filter (fun r => decide (month r = m))).filter
          (fun r => decide (r.country = c))) := by
    unfold groupRevenue
    rw [filter_key_of_month rs ((m : String), c) m rfl]
    have hfe : (rs.filter (fun r => decide (month r = m))).filter
          (fun r => decide (keyOf r = ((m : String), c)))
        = (rs.filter (fun r => decide (month r = m))).filter
            (fun r => decide (r.country = c)) := by
      apply List.filter_congr
      intro r hr
      have hmr : month r = m := by simpa using (List.mem_filter.mp hr).2
      by_cases hc2 : r.country = c
      · have hkc : keyOf r = ((m : String), c) := by
          rw [show keyOf r = (month r, r.country) from rfl, hmr, hc2]
        simp [hkc, hc2]
      · have hkc : keyOf r ≠ ((m : String), c) := by
          intro hk
          exact hc2 (by rw [show r.country = (keyOf r).2 from rfl, hk])
        simp [hkc, hc2]
    rw [hfe]
  exact congrArg (fun z => (c, z)) hgrp
